import Mathlib

set_option maxRecDepth 10000

/-!
Verification development for the `info_scraper` repository
(`src/zendesk-api-scraper.js`).  The JavaScript source is shallowly
embedded: strings are `List Char` / `String`, each `String.replace`
call with a regular expression becomes an executable rewrite over the
character list, the HTTP layer becomes an explicit environment of
upstream responses, and the nested crawl loops become structural
recursions over the fetched lists.
-/

namespace InfoScraper

/-! ## JavaScript character classes and regex-matching primitives

`isJsWs` is the character class `\s` of JavaScript regular expressions
(also the set trimmed by `String.prototype.trim`).  The matching
combinators implement exactly the constructs used by the source's
regexes: case-insensitive literals (`/i` flag), greedy `[^>]*` with
backtracking, greedy `\s*` with backtracking, and lazy `(.*?)` /
`([\s\S]*?)` captures ending at a literal closing tag. -/

def isJsWs (c : Char) : Bool :=
  c == ' ' || c == '\t' || c == '\n' || c == '\r' ||
  c == Char.ofNat 11 || c == Char.ofNat 12 ||
  c == Char.ofNat 160 || c == Char.ofNat 0x1680 ||
  (0x2000 ≤ c.toNat && c.toNat ≤ 0x200a) ||
  c == Char.ofNat 0x2028 || c == Char.ofNat 0x2029 ||
  c == Char.ofNat 0x202f || c == Char.ofNat 0x205f ||
  c == Char.ofNat 0x3000 || c == Char.ofNat 0xfeff

/-- Case-insensitive character comparison, as used by the `/i` regex flag. -/
def charEqCI (p c : Char) : Bool := p.toLower == c.toLower

/-- Case-sensitive character comparison (regexes without the `/i` flag). -/
def charEqCS (p c : Char) : Bool := p == c

/-- Match a literal pattern at the head of the input; on success return
the remainder of the input. -/
def matchLit (eq : Char → Char → Bool) : List Char → List Char → Option (List Char)
  | [], l => some l
  | _ :: _, [] => none
  | p :: ps, c :: cs => if eq p c then matchLit eq ps cs else none

/-- Consume `[^>]*>` : everything up to and including the first `>`. -/
def skipNotGt : List Char → Option (List Char)
  | [] => none
  | c :: cs => if c == '>' then some cs else skipNotGt cs

/-- Match an opening tag `<name[^>]*>` case-insensitively. -/
def matchOpenTag (name : List Char) (l : List Char) : Option (List Char) :=
  match matchLit charEqCI ('<' :: name) l with
  | some rest => skipNotGt rest
  | none => none

/-- Lazy capture: the semantics of `(p*?)closePat` — at each position
first try to match the (case-insensitive) closing literal, otherwise
consume one character satisfying `p`.  Returns the captured text and the
remainder after the closing literal. -/
def lazyCaptureUntil (p : Char → Bool) (closePat : List Char) :
    List Char → Option (List Char × List Char)
  | [] =>
    match matchLit charEqCI closePat [] with
    | some rest => some ([], rest)
    | none => none
  | c :: cs =>
    match matchLit charEqCI closePat (c :: cs) with
    | some rest => some ([], rest)
    | none =>
      if p c then
        match lazyCaptureUntil p closePat cs with
        | some (cap, rest) => some (c :: cap, rest)
        | none => none
      else none

/-- Greedy `[^>]*` with backtracking into the continuation `k`
(longest match first, as a backtracking regex engine does). -/
def starGreedyNotGt {α : Type} (k : List Char → Option α) : List Char → Option α
  | [] => k []
  | c :: cs =>
    if c == '>' then k (c :: cs)
    else
      match starGreedyNotGt k cs with
      | some r => some r
      | none => k (c :: cs)

/-- Greedy `\s*` with backtracking into the continuation `k`. -/
def wsStarGreedy {α : Type} (k : List Char → Option α) : List Char → Option α
  | [] => k []
  | c :: cs =>
    if isJsWs c then
      match wsStarGreedy k cs with
      | some r => some r
      | none => k (c :: cs)
    else k (c :: cs)

/-- One global-replace pass (`String.replace` with the `/g` flag): scan
left to right, at each position try the rule; on a match emit the rule's
replacement and continue after the match, otherwise keep the character.
Every rule used below consumes at least one character, so fuel equal to
the input length suffices. -/
def applyRuleAux (rule : List Char → Option (List Char × List Char)) :
    Nat → List Char → List Char
  | 0, l => l
  | _ + 1, [] => []
  | fuel + 1, c :: cs =>
    match rule (c :: cs) with
    | some (rep, rest) => rep ++ applyRuleAux rule fuel rest
    | none => c :: applyRuleAux rule fuel cs

def applyRule (rule : List Char → Option (List Char × List Char))
    (l : List Char) : List Char :=
  applyRuleAux rule l.length l

/-- JavaScript `String.prototype.replace` with a *string* pattern and an
empty replacement: remove the first occurrence of `pat`. -/
def removeFirstOcc (pat : List Char) : List Char → List Char
  | [] => []
  | c :: cs =>
    if pat.isPrefixOf (c :: cs) then (c :: cs).drop pat.length
    else c :: removeFirstOcc pat cs

/-! ## `generateSlug` (src/zendesk-api-scraper.js lines 204-211)

Lowercase the title, delete every character outside `[a-z0-9\s-]`,
replace each whitespace run by one hyphen, collapse hyphen runs to one
hyphen, then remove a leading and a trailing hyphen (the regex
`^-|-$` with the global flag). -/

/-- Character class `[a-z0-9\s-]` (the characters *kept* by the
`[^a-z0-9\s-]` removal). -/
def isSlugKeep (c : Char) : Bool :=
  (97 ≤ c.toNat && c.toNat ≤ 122) || (48 ≤ c.toNat && c.toNat ≤ 57) ||
  isJsWs c || c == '-'

/-- `\s+` runs to single hyphens; the flag records whether the previous
character was inside a whitespace run (whose first character already
emitted the hyphen). -/
def wsRunsToHyphens : Bool → List Char → List Char
  | _, [] => []
  | b, c :: cs =>
    if isJsWs c then
      if b then wsRunsToHyphens true cs else '-' :: wsRunsToHyphens true cs
    else c :: wsRunsToHyphens false cs

/-- `-+` runs to single hyphens. -/
def collapseHyphens : Bool → List Char → List Char
  | _, [] => []
  | b, c :: cs =>
    if c == '-' then
      if b then collapseHyphens true cs else '-' :: collapseHyphens true cs
    else c :: collapseHyphens false cs

/-- `/^-|-$/g` removes one leading hyphen (anchored at the start) and
one trailing hyphen (anchored at the end). -/
def dropLeadHyphen : List Char → List Char
  | '-' :: rest => rest
  | l => l

def dropTrailHyphen (l : List Char) : List Char :=
  (dropLeadHyphen l.reverse).reverse

def generateSlug (title : String) : String :=
  String.mk
    (dropTrailHyphen (dropLeadHyphen (collapseHyphens false
      (wsRunsToHyphens false
        ((title.data.map Char.toLower).filter isSlugKeep)))))

/-! ## `htmlToMarkdown` (src/zendesk-api-scraper.js lines 113-199)

The converter is an ordered chain of `String.replace` calls; each call
below becomes one `applyRule` pass, in the exact source order. -/

/-- Closing-tag literal for a tag name. -/
def closeTagOf (name : List Char) : List Char := '<' :: '/' :: (name ++ [ '>' ])

/-- Rule for removal of a whole element:
an opening tag, a lazy any-character capture, and the closing tag. -/
def stripBlockRule (name : List Char) (l : List Char) :
    Option (List Char × List Char) :=
  match matchOpenTag name l with
  | some rest =>
    match lazyCaptureUntil (fun _ => true) (closeTagOf name) rest with
    | some (_, rest2) => some ([], rest2)
    | none => none
  | none => none

/-- Rule for an element rewritten around its lazy capture:
for example headings, bold, italic, inline code, list items, pre. -/
def wrapRule (name pre post : List Char) (p : Char → Bool) (l : List Char) :
    Option (List Char × List Char) :=
  match matchOpenTag name l with
  | some rest =>
    match lazyCaptureUntil p (closeTagOf name) rest with
    | some (cap, rest2) => some (pre ++ cap ++ post, rest2)
    | none => none
  | none => none

/-- Rule replacing an opening tag `<name[^>]*>` by a fixed text. -/
def openTagRule (name rep : List Char) (l : List Char) :
    Option (List Char × List Char) :=
  match matchOpenTag name l with
  | some rest => some (rep, rest)
  | none => none

/-- Rule replacing a closing tag (a case-insensitive literal) by a fixed
text. -/
def closeTagRule (name rep : List Char) (l : List Char) :
    Option (List Char × List Char) :=
  match matchLit charEqCI (closeTagOf name) l with
  | some rest => some (rep, rest)
  | none => none

/-- A quote character, the class `["']` of the anchor and image rules. -/
def isQuote (c : Char) : Bool := c == '"' || c == Char.ofNat 39

/-- Markdown link text, the template of the anchor replacement. -/
def mdLink (text href : List Char) : List Char :=
  '[' :: (text ++ (']' :: '(' :: (href ++ [ ')' ])))

/-- The href-normalizing replacement callback of the anchor rule
(src/zendesk-api-scraper.js lines 142-152): root-relative hrefs are kept,
hrefs starting with the configured base origin lose it (the first
occurrence of the base origin is removed, which for a prefix is exactly
the prefix), all other hrefs are kept verbatim. -/
def anchorReplacement (baseUrl href text : List Char) : List Char :=
  if ( "/").data.isPrefixOf href then
    mdLink text href
  else if baseUrl.isPrefixOf href then
    mdLink text (removeFirstOcc baseUrl href)
  else if ( "http").data.isPrefixOf href then
    mdLink text href
  else
    mdLink text href

/-- The anchor rule `<a[^>]*href=["']([^"']*)["'][^>]*>(.*?)</a>`
(case-insensitive) with `anchorReplacement` as its callback. -/
def anchorRule (baseUrl : List Char) (l : List Char) :
    Option (List Char × List Char) :=
  match matchLit charEqCI ( "<a").data l with
  | none => none
  | some r1 =>
    starGreedyNotGt (fun r2 =>
      match matchLit charEqCI ( "href=").data r2 with
      | none => none
      | some r3 =>
        match r3 with
        | [] => none
        | q :: r4 =>
          if isQuote q then
            let sp := r4.span (fun c => !(isQuote c))
            match sp.2 with
            | [] => none
            | _ :: r6 =>
              match skipNotGt r6 with
              | none => none
              | some r7 =>
                match lazyCaptureUntil (fun c => c != '\n') ( "</a>").data r7 with
                | some (text, rest) =>
                  some (anchorReplacement baseUrl sp.1 text, rest)
                | none => none
          else none) r1

/-- The image rule with both src and alt:
`<img[^>]*src=["']([^"']*)["'][^>]*alt=["']([^"']*)["'][^>]*>`. -/
def imgAltRule (l : List Char) : Option (List Char × List Char) :=
  match matchLit charEqCI ( "<img").data l with
  | none => none
  | some r1 =>
    starGreedyNotGt (fun r2 =>
      match matchLit charEqCI ( "src=").data r2 with
      | none => none
      | some r3 =>
        match r3 with
        | [] => none
        | q :: r4 =>
          if isQuote q then
            let sp := r4.span (fun c => !(isQuote c))
            match sp.2 with
            | [] => none
            | _ :: r6 =>
              starGreedyNotGt (fun r7 =>
                match matchLit charEqCI ( "alt=").data r7 with
                | none => none
                | some r8 =>
                  match r8 with
                  | [] => none
                  | q2 :: r9 =>
                    if isQuote q2 then
                      let sp2 := r9.span (fun c => !(isQuote c))
                      match sp2.2 with
                      | [] => none
                      | _ :: r11 =>
                        match skipNotGt r11 with
                        | none => none
                        | some rest =>
                          some (( "![").data ++ sp2.1 ++ ( "](").data ++
                                sp.1 ++ [ ')' ], rest)
                    else none) r6
          else none) r1

/-- The fallback image rule `<img[^>]*src=["']([^"']*)["'][^>]*>`. -/
def imgSrcRule (l : List Char) : Option (List Char × List Char) :=
  match matchLit charEqCI ( "<img").data l with
  | none => none
  | some r1 =>
    starGreedyNotGt (fun r2 =>
      match matchLit charEqCI ( "src=").data r2 with
      | none => none
      | some r3 =>
        match r3 with
        | [] => none
        | q :: r4 =>
          if isQuote q then
            let sp := r4.span (fun c => !(isQuote c))
            match sp.2 with
            | [] => none
            | _ :: r6 =>
              match skipNotGt r6 with
              | none => none
              | some rest => some (( "![](").data ++ sp.1 ++ [ ')' ], rest)
          else none) r1

/-- The `pre > code` rule
`<pre[^>]*><code[^>]*>([\s\S]*?)</code>` followed by the closing
`</pre>` literal, replaced by a fenced code block. -/
def preCodeRule (l : List Char) : Option (List Char × List Char) :=
  match matchOpenTag ( "pre").data l with
  | some r1 =>
    match matchOpenTag ( "code").data r1 with
    | some r2 =>
      match lazyCaptureUntil (fun _ => true) ( "</code></pre>").data r2 with
      | some (cap, rest) =>
        some (( "```\n").data ++ cap ++ ( "\n```").data, rest)
      | none => none
    | none => none
  | none => none

/-- The bare `pre` rule, replaced by a fenced code block. -/
def preBareRule : List Char → Option (List Char × List Char) :=
  wrapRule ( "pre").data ( "```\n").data ( "\n```").data (fun _ => true)

/-- The two code-block passes of the converter, in source order. -/
def rewritePre (l : List Char) : List Char :=
  applyRule preBareRule (applyRule preCodeRule l)

/-- The final catch-all tag removal `<[^>]*>`. -/
def anyTagRule : List Char → Option (List Char × List Char)
  | '<' :: cs =>
    match skipNotGt cs with
    | some rest => some ([], rest)
    | none => none
  | _ => none

/-- A fixed entity (case-sensitive literal) replaced by its character. -/
def entityRule (pat rep : List Char) (l : List Char) :
    Option (List Char × List Char) :=
  match matchLit charEqCS pat l with
  | some rest => some (rep, rest)
  | none => none

/-- The entity `&#39;` and the apostrophe character it decodes to. -/
def aposEntity : List Char := '&' :: '#' :: '3' :: '9' :: [Char.ofNat 39]

def aposChar : List Char := [Char.ofNat 39]

/-- The newline-collapsing rule `\n\s*\n\s*\n` replaced by two
newlines (both inner stars greedy with backtracking). -/
def tripleNlRule (l : List Char) : Option (List Char × List Char) :=
  match l with
  | '\n' :: cs =>
    match wsStarGreedy (fun r1 =>
      match r1 with
      | '\n' :: cs2 =>
        wsStarGreedy (fun r2 =>
          match r2 with
          | '\n' :: cs3 => some cs3
          | _ => none) cs2
      | _ => none) cs with
    | some rest => some (( "\n\n").data, rest)
    | none => none
  | _ => none

/-- The rule `\n\s+` replaced by one newline: a newline followed by at
least one whitespace character; the greedy `\s+` with no continuation is
the maximal whitespace run. -/
def nlWsRule : List Char → Option (List Char × List Char)
  | '\n' :: c :: cs =>
    if isJsWs c then some (( "\n").data, c :: cs |>.dropWhile isJsWs)
    else none
  | _ => none

/-- Zero-width `$` in multiline mode: end of input or a position just
before a newline. -/
def assertEol : List Char → Option (List Char)
  | [] => some []
  | '\n' :: cs => some ('\n' :: cs)
  | _ => none

/-- The rule `\s+$` (multiline) replaced by nothing: at least one
whitespace character, greedy with backtracking into the end-of-line
assertion. -/
def trailingWsRule : List Char → Option (List Char × List Char)
  | [] => none
  | c :: cs =>
    if isJsWs c then
      match wsStarGreedy assertEol cs with
      | some rest => some ([], rest)
      | none => none
    else none

/-- JavaScript `String.prototype.trim`. -/
def trimJs (l : List Char) : List Char :=
  ((l.dropWhile isJsWs).reverse.dropWhile isJsWs).reverse

/-- The whitespace-normalization tail of the converter
(src/zendesk-api-scraper.js lines 193-196): collapse newline runs, then
the `\n\s+` rewrite, then trailing-whitespace removal, then trim. -/
def normalizeWhitespace (l : List Char) : List Char :=
  trimJs (applyRule trailingWsRule (applyRule nlWsRule (applyRule tripleNlRule l)))

/-- The full rewrite pipeline, in the exact order of the source chain. -/
def markdownPipeline (baseUrl : List Char) (html : List Char) : List Char :=
  let notNl : Char → Bool := fun c => c != '\n'
  let s := applyRule (stripBlockRule ( "script").data) html
  let s := applyRule (stripBlockRule ( "style").data) s
  let s := applyRule (stripBlockRule ( "nav").data) s
  let s := applyRule (stripBlockRule ( "footer").data) s
  let s := applyRule (stripBlockRule ( "header").data) s
  let s := applyRule (stripBlockRule ( "aside").data) s
  let s := applyRule (wrapRule ( "h1").data ( "# ").data [] notNl) s
  let s := applyRule (wrapRule ( "h2").data ( "## ").data [] notNl) s
  let s := applyRule (wrapRule ( "h3").data ( "### ").data [] notNl) s
  let s := applyRule (wrapRule ( "h4").data ( "#### ").data [] notNl) s
  let s := applyRule (wrapRule ( "h5").data ( "##### ").data [] notNl) s
  let s := applyRule (wrapRule ( "h6").data ( "###### ").data [] notNl) s
  let s := applyRule (wrapRule ( "strong").data ( "**").data ( "**").data notNl) s
  let s := applyRule (wrapRule ( "b").data ( "**").data ( "**").data notNl) s
  let s := applyRule (wrapRule ( "em").data ( "*").data ( "*").data notNl) s
  let s := applyRule (wrapRule ( "i").data ( "*").data ( "*").data notNl) s
  let s := applyRule (wrapRule ( "code").data ( "`").data ( "`").data notNl) s
  let s := applyRule (anchorRule baseUrl) s
  let s := applyRule imgAltRule s
  let s := applyRule imgSrcRule s
  let s := applyRule (openTagRule ( "ul").data []) s
  let s := applyRule (closeTagRule ( "ul").data []) s
  let s := applyRule (openTagRule ( "ol").data []) s
  let s := applyRule (closeTagRule ( "ol").data []) s
  let s := applyRule (wrapRule ( "li").data ( "- ").data [] notNl) s
  let s := rewritePre s
  let s := applyRule (openTagRule ( "p").data []) s
  let s := applyRule (closeTagRule ( "p").data ( "\n\n").data) s
  let s := applyRule (openTagRule ( "br").data ( "\n").data) s
  let s := applyRule (openTagRule ( "div").data []) s
  let s := applyRule (closeTagRule ( "div").data ( "\n").data) s
  let s := applyRule anyTagRule s
  let s := applyRule (entityRule ( "&amp;").data ( "&").data) s
  let s := applyRule (entityRule ( "&lt;").data ( "<").data) s
  let s := applyRule (entityRule ( "&gt;").data ( ">").data) s
  let s := applyRule (entityRule ( "&quot;").data ( "\"").data) s
  let s := applyRule (entityRule aposEntity aposChar) s
  let s := applyRule (entityRule ( "&nbsp;").data ( " ").data) s
  normalizeWhitespace s

/-- `htmlToMarkdown(html, articleUrl)`: falsy input (absent or empty)
yields the empty string before any rule runs; otherwise the pipeline is
applied.  The `articleUrl` parameter exists in the source signature and
is never used. -/
def htmlToMarkdown (baseUrl : String) (html : Option String)
    (_articleUrl : String) : String :=
  match html with
  | none => ""
  | some h => if h = "" then "" else String.mk (markdownPipeline baseUrl.data h.data)

/-! ## Data model (spec section 3, and the fields the source reads) -/

structure Category where
  id : Nat
  name : String
deriving DecidableEq

structure HCSection where
  id : Nat
  name : String
deriving DecidableEq

structure ArticleSummary where
  id : Nat
  title : String
deriving DecidableEq

structure Article where
  id : Nat
  title : String
  body : Option String
  html_url : String
  author_id : Option Nat
  created_at : String
  updated_at : String
  draft : Bool
  promoted : Bool
  position : Int
  vote_sum : Int
  vote_count : Int
  section_id : Nat
  label_names : Option (List String)
deriving DecidableEq

/-- The record returned by a successful `saveArticleAsMarkdown`
(src/zendesk-api-scraper.js lines 251-257). -/
structure ScrapeResult where
  filename : String
  filepath : String
  slug : String
  title : String
  length : Nat
deriving DecidableEq

/-! ## Constructor (src/zendesk-api-scraper.js lines 15-21)

Every option is defaulted through JavaScript `||`, so a falsy value
(absent, `0`, the empty string) is replaced by the default. -/

structure ScraperOptions where
  baseUrl : Option String := none
  locale : Option String := none
  outputDir : Option String := none
  delay : Option Nat := none
  maxArticles : Option Nat := none

/-- JavaScript `x || d` for an optional number: absent or `0` (the falsy
number) yields the default. -/
def jsOrNat (v : Option Nat) (d : Nat) : Nat :=
  match v with
  | none => d
  | some n => if n = 0 then d else n

/-- JavaScript `x || d` for an optional string: absent or empty yields
the default. -/
def jsOrString (v : Option String) (d : String) : String :=
  match v with
  | none => d
  | some s => if s = "" then d else s

structure Scraper where
  baseUrl : String
  apiUrl : String
  locale : String
  outputDir : String
  delay : Nat
  maxArticles : Nat

/-- The constructor.  The output-directory default is
`path.join(__dirname, '../articles')` in the source, a fixed
installation-relative path. -/
def mkScraper (options : ScraperOptions) : Scraper :=
  let baseUrl := jsOrString options.baseUrl "https://support.optisigns.com"
  { baseUrl := baseUrl
    apiUrl := baseUrl ++ "/api/v2/help_center"
    locale := jsOrString options.locale "en-us"
    outputDir := jsOrString options.outputDir "../articles"
    delay := jsOrNat options.delay 1000
    maxArticles := jsOrNat options.maxArticles 50 }

/-! ## Entity fetchers (src/zendesk-api-scraper.js lines 57-108)

Each fetcher performs one GET inside `try { ... } catch`, so its outcome
is either a transport/HTTP error (the `catch` branch) or a JSON body in
which the expected field may be absent.  The fetchers are total
functions of that outcome: no error escapes to the caller. -/

inductive FetchResult (α : Type) where
  | ok (data : α)
  | err (message : String)

structure CategoriesBody where
  categories : Option (List Category)

structure SectionsBody where
  sections : Option (List HCSection)

structure ArticlesBody where
  articles : Option (List ArticleSummary)

structure ArticleBody where
  article : Option Article

/-- `response.data.categories || []`, with `[]` from the catch branch. -/
def fetchCategories (r : FetchResult CategoriesBody) : List Category :=
  match r with
  | FetchResult.ok body => body.categories.getD []
  | FetchResult.err _ => []

/-- `response.data.sections || []`, with `[]` from the catch branch. -/
def fetchSections (r : FetchResult SectionsBody) : List HCSection :=
  match r with
  | FetchResult.ok body => body.sections.getD []
  | FetchResult.err _ => []

/-- `response.data.articles || []`, with `[]` from the catch branch. -/
def fetchArticles (r : FetchResult ArticlesBody) : List ArticleSummary :=
  match r with
  | FetchResult.ok body => body.articles.getD []
  | FetchResult.err _ => []

/-- `response.data.article` (absent field stays absent), with `null`
from the catch branch; the rate-limiting sleep before the request has no
effect on the returned value. -/
def fetchArticleContent (r : FetchResult ArticleBody) : Option Article :=
  match r with
  | FetchResult.ok body => body.article
  | FetchResult.err _ => none

/-! ## Frontmatter and `saveArticleAsMarkdown`
(src/zendesk-api-scraper.js lines 216-262) -/

/-- The title escaping `title.replace(/"/g, backslash-quote)` as the
one-character global rule it is. -/
def quoteRule : List Char → Option (List Char × List Char)
  | c :: cs => if c == '"' then some ([ '\\', '"'], cs) else none
  | [] => none

def escapeQuotes (s : String) : String :=
  String.mk (applyRule quoteRule s.data)

/-- One character under `JSON.stringify` string escaping. -/
def jsonEscapeChar (c : Char) : List Char :=
  if c == '"' then [ '\\', '"']
  else if c == '\\' then [ '\\', '\\']
  else if c == '\n' then [ '\\', 'n']
  else if c == '\r' then [ '\\', 'r']
  else if c == '\t' then [ '\\', 't']
  else if c == Char.ofNat 8 then [ '\\', 'b']
  else if c == Char.ofNat 12 then [ '\\', 'f']
  else if c.toNat < 32 then
    [ '\\', 'u', '0', '0',
      (if c.toNat / 16 < 10 then Char.ofNat (48 + c.toNat / 16)
       else Char.ofNat (87 + c.toNat / 16)),
      (if c.toNat % 16 < 10 then Char.ofNat (48 + c.toNat % 16)
       else Char.ofNat (87 + c.toNat % 16))]
  else [c]

/-- `JSON.stringify` of an array of strings. -/
def jsonStringifyStrings (l : List String) : String :=
  "[" ++ String.intercalate ","
    (l.map (fun s => String.mk ( '"' :: (s.data.flatMap jsonEscapeChar ++ [ '"'])))) ++ "]"

/-- `name || 'Unknown'` for a possibly empty name string. -/
def nameOrUnknown (name : String) : String :=
  if name = "" then "Unknown" else name

/-- The frontmatter template (src/zendesk-api-scraper.js lines 225-244),
field by field in source order.  `category?.name || 'Unknown'` is
`"Unknown"` when the category is absent or its name is empty, and
similarly for the section and the author id (where `0` is falsy). -/
def buildFrontmatter (article : Article) (category : Option Category)
    (sect : Option HCSection) : String :=
  "---\ntitle: \"" ++ escapeQuotes article.title
  ++ "\"\nid: " ++ toString article.id
  ++ "\nurl: " ++ article.html_url
  ++ "\ncategory: \"" ++
    (match category with
     | none => "Unknown"
     | some c => nameOrUnknown c.name)
  ++ "\"\nsection: \"" ++
    (match sect with
     | none => "Unknown"
     | some s => nameOrUnknown s.name)
  ++ "\"\nauthor: \"" ++
    (match article.author_id with
     | none => "Unknown"
     | some a => if a = 0 then "Unknown" else toString a)
  ++ "\"\ncreated_at: \"" ++ article.created_at
  ++ "\"\nupdated_at: \"" ++ article.updated_at
  ++ "\"\ndraft: " ++ toString article.draft
  ++ "\npromoted: " ++ toString article.promoted
  ++ "\nposition: " ++ toString article.position
  ++ "\nvote_sum: " ++ toString article.vote_sum
  ++ "\nvote_count: " ++ toString article.vote_count
  ++ "\nsection_id: " ++ toString article.section_id
  ++ "\ncategory_id: " ++
    (match category with
     | none => ""
     | some c => if c.id = 0 then "" else toString c.id)
  ++ "\ntags: " ++ jsonStringifyStrings (article.label_names.getD [])
  ++ "\n---\n\n"

/-! ## The crawl (src/zendesk-api-scraper.js lines 267-323)

The upstream world is an environment: one response per endpoint, and a
success flag per file write.  The crawl also records a trace — each fetch
call paired with the value of `totalArticles` at the moment of the call,
and the (category, section, summary) triple of every article-detail
fetch that was attempted. -/

structure Env where
  categoriesResp : FetchResult CategoriesBody
  sectionsResp : Nat → FetchResult SectionsBody
  articlesResp : Nat → FetchResult ArticlesBody
  detailResp : Nat → FetchResult ArticleBody
  writeOk : String → String → Bool

/-- `saveArticleAsMarkdown`: derive slug, filename, path; convert the
body; build the frontmatter; write; return the result record, or `null`
when the write fails (the source catches any error and returns null). -/
def saveArticleAsMarkdown (S : Scraper) (env : Env) (article : Article)
    (category : Option Category) (sect : Option HCSection) : Option ScrapeResult :=
  let slug := generateSlug article.title
  let filename := slug ++ ".md"
  let filepath := S.outputDir ++ "/" ++ filename
  let markdownContent := htmlToMarkdown S.baseUrl article.body article.html_url
  let frontmatter := buildFrontmatter article category sect
  let fullContent := frontmatter ++ markdownContent
  if env.writeOk filepath fullContent then
    some { filename := filename, filepath := filepath, slug := slug,
           title := article.title, length := markdownContent.length }
  else none

inductive FetchEvent where
  | categories
  | sections (categoryId : Nat)
  | articles (sectionId : Nat)
  | articleDetail (articleId : Nat)
deriving DecidableEq

structure ProcessedItem where
  category : Category
  sect : HCSection
  summary : ArticleSummary
deriving DecidableEq

structure CrawlState where
  saved : List ScrapeResult
  total : Nat
  events : List (FetchEvent × Nat)
  processed : List ProcessedItem
deriving DecidableEq

/-- The innermost loop over article summaries: break before the detail
fetch when the cap is reached; otherwise fetch the detail, and on a
non-null article attempt the save, counting only successful saves. -/
def summariesLoop (S : Scraper) (env : Env) (cat : Category) (sec : HCSection) :
    List ArticleSummary → CrawlState → CrawlState
  | [], st => st
  | a :: rest, st =>
    if S.maxArticles ≤ st.total then st
    else
      let st1 : CrawlState :=
        { st with
          events := st.events ++ [(FetchEvent.articleDetail a.id, st.total)],
          processed := st.processed ++ [⟨cat, sec, a⟩] }
      match fetchArticleContent (env.detailResp a.id) with
      | none => summariesLoop S env cat sec rest st1
      | some fullArticle =>
        match saveArticleAsMarkdown S env fullArticle (some cat) (some sec) with
        | none => summariesLoop S env cat sec rest st1
        | some savedArticle =>
          summariesLoop S env cat sec rest
            { st1 with saved := st1.saved ++ [savedArticle], total := st1.total + 1 }

/-- The middle loop over sections: break before the article-listing
fetch when the cap is reached. -/
def sectionsLoop (S : Scraper) (env : Env) (cat : Category) :
    List HCSection → CrawlState → CrawlState
  | [], st => st
  | s :: rest, st =>
    if S.maxArticles ≤ st.total then st
    else
      let st1 : CrawlState :=
        { st with events := st.events ++ [(FetchEvent.articles s.id, st.total)] }
      sectionsLoop S env cat rest
        (summariesLoop S env cat s (fetchArticles (env.articlesResp s.id)) st1)

/-- The outer loop over categories: break before the section-listing
fetch when the cap is reached. -/
def categoriesLoop (S : Scraper) (env : Env) :
    List Category → CrawlState → CrawlState
  | [], st => st
  | c :: rest, st =>
    if S.maxArticles ≤ st.total then st
    else
      let st1 : CrawlState :=
        { st with events := st.events ++ [(FetchEvent.sections c.id, st.total)] }
      categoriesLoop S env rest
        (sectionsLoop S env c (fetchSections (env.sectionsResp c.id)) st1)

/-- The state at the start of a crawl: the unconditional category fetch
has already been recorded, with `totalArticles = 0`. -/
def initialState : CrawlState :=
  { saved := [], total := 0, events := [(FetchEvent.categories, 0)], processed := [] }

/-- `scrapeAllArticles`: fetch the categories (always), return the empty
accumulator when none were found, otherwise run the nested loops. -/
def scrapeAllArticles (S : Scraper) (env : Env) : CrawlState :=
  let cats := fetchCategories env.categoriesResp
  if cats.isEmpty then initialState
  else categoriesLoop S env cats initialState

/-- The outcome the crawl body computes for one attempted summary: the
detail fetch, then on a non-null article the save. -/
def articleOutcome (S : Scraper) (env : Env) (item : ProcessedItem) :
    Option ScrapeResult :=
  (fetchArticleContent (env.detailResp item.summary.id)).bind
    (fun art => saveArticleAsMarkdown S env art (some item.category) (some item.sect))

/-! ## Crawl invariants

`LoopDelta st out` relates a loop's entry state to its exit state: the
processed items and events grow by suffixes `np` and `ne`; the saved
list grows by exactly the successful outcomes of the new items; the
counter grows by the same amount; every new event was recorded with a
running total strictly below the cap; and a total within the cap stays
within the cap. -/

def LoopDelta (S : Scraper) (env : Env) (st out : CrawlState) : Prop :=
  ∃ np ne,
    out.processed = st.processed ++ np ∧
    out.events = st.events ++ ne ∧
    out.saved = st.saved ++ np.filterMap (articleOutcome S env) ∧
    out.total = st.total + (np.filterMap (articleOutcome S env)).length ∧
    (∀ e ∈ ne, e.2 < S.maxArticles) ∧
    (st.total ≤ S.maxArticles → out.total ≤ S.maxArticles)

lemma loopDelta_refl (S : Scraper) (env : Env) (st : CrawlState) :
    LoopDelta S env st st :=
  ⟨[], [], by simp, by simp, by simp, by simp, by simp, fun h => h⟩

lemma loopDelta_trans {S : Scraper} {env : Env} {st mid out : CrawlState}
    (h1 : LoopDelta S env st mid) (h2 : LoopDelta S env mid out) :
    LoopDelta S env st out := by
  obtain ⟨np1, ne1, hp1, he1, hs1, ht1, hne1, hle1⟩ := h1
  obtain ⟨np2, ne2, hp2, he2, hs2, ht2, hne2, hle2⟩ := h2
  refine ⟨np1 ++ np2, ne1 ++ ne2, ?_, ?_, ?_, ?_, ?_, ?_⟩
  · rw [hp2, hp1, List.append_assoc]
  · rw [he2, he1, List.append_assoc]
  · rw [hs2, hs1, List.filterMap_append, List.append_assoc]
  · rw [ht2, ht1, List.filterMap_append, List.length_append]; omega
  · intro e he
    rcases List.mem_append.mp he with h | h
    · exact hne1 e h
    · exact hne2 e h
  · intro h; exact hle2 (hle1 h)

lemma summariesLoop_delta (S : Scraper) (env : Env) (cat : Category)
    (sec : HCSection) (as : List ArticleSummary) :
    ∀ st, LoopDelta S env st (summariesLoop S env cat sec as st) := by
  induction as with
  | nil => intro st; simp only [summariesLoop]; exact loopDelta_refl S env st
  | cons a rest ih =>
    intro st
    simp only [summariesLoop]
    by_cases hcap : S.maxArticles ≤ st.total
    · rw [if_pos hcap]; exact loopDelta_refl S env st
    · rw [if_neg hcap]
      have hlt : st.total < S.maxArticles := Nat.lt_of_not_le hcap
      cases hf : fetchArticleContent (env.detailResp a.id) with
      | none =>
        refine loopDelta_trans ?_ (ih _)
        refine ⟨[⟨cat, sec, a⟩], [(FetchEvent.articleDetail a.id, st.total)],
          rfl, rfl, ?_, ?_, ?_, fun h => h⟩
        · simp [articleOutcome, hf]
        · simp [articleOutcome, hf]
        · intro e he
          rw [List.mem_singleton] at he
          subst he
          exact hlt
      | some art =>
        dsimp only
        cases hs : saveArticleAsMarkdown S env art (some cat) (some sec) with
        | none =>
          refine loopDelta_trans ?_ (ih _)
          refine ⟨[⟨cat, sec, a⟩], [(FetchEvent.articleDetail a.id, st.total)],
            rfl, rfl, ?_, ?_, ?_, fun h => h⟩
          · simp [articleOutcome, hf, hs]
          · simp [articleOutcome, hf, hs]
          · intro e he
            rw [List.mem_singleton] at he
            subst he
            exact hlt
        | some r =>
          refine loopDelta_trans ?_ (ih _)
          refine ⟨[⟨cat, sec, a⟩], [(FetchEvent.articleDetail a.id, st.total)],
            rfl, rfl, ?_, ?_, ?_, fun _ => hlt⟩
          · simp [articleOutcome, hf, hs]
          · simp [articleOutcome, hf, hs]
          · intro e he
            rw [List.mem_singleton] at he
            subst he
            exact hlt

lemma sectionsLoop_delta (S : Scraper) (env : Env) (cat : Category)
    (ss : List HCSection) :
    ∀ st, LoopDelta S env st (sectionsLoop S env cat ss st) := by
  induction ss with
  | nil => intro st; simp only [sectionsLoop]; exact loopDelta_refl S env st
  | cons s rest ih =>
    intro st
    simp only [sectionsLoop]
    by_cases hcap : S.maxArticles ≤ st.total
    · rw [if_pos hcap]; exact loopDelta_refl S env st
    · rw [if_neg hcap]
      have hlt : st.total < S.maxArticles := Nat.lt_of_not_le hcap
      refine loopDelta_trans (loopDelta_trans ?_ (summariesLoop_delta S env cat s _ _)) (ih _)
      refine ⟨[], [(FetchEvent.articles s.id, st.total)],
        by simp, rfl, by simp, by simp, ?_, fun h => h⟩
      intro e he
      rw [List.mem_singleton] at he
      subst he
      exact hlt

lemma categoriesLoop_delta (S : Scraper) (env : Env) (cs : List Category) :
    ∀ st, LoopDelta S env st (categoriesLoop S env cs st) := by
  induction cs with
  | nil => intro st; simp only [categoriesLoop]; exact loopDelta_refl S env st
  | cons c rest ih =>
    intro st
    simp only [categoriesLoop]
    by_cases hcap : S.maxArticles ≤ st.total
    · rw [if_pos hcap]; exact loopDelta_refl S env st
    · rw [if_neg hcap]
      have hlt : st.total < S.maxArticles := Nat.lt_of_not_le hcap
      refine loopDelta_trans (loopDelta_trans ?_ (sectionsLoop_delta S env c _ _)) (ih _)
      refine ⟨[], [(FetchEvent.sections c.id, st.total)],
        by simp, rfl, by simp, by simp, ?_, fun h => h⟩
      intro e he
      rw [List.mem_singleton] at he
      subst he
      exact hlt

lemma scrape_delta (S : Scraper) (env : Env) :
    LoopDelta S env initialState (scrapeAllArticles S env) := by
  unfold scrapeAllArticles
  dsimp only
  split
  · exact loopDelta_refl S env initialState
  · exact categoriesLoop_delta S env _ initialState

/-! ## Claim theorems -/

/-- C1: for every configured cap and every environment of upstream
responses, the list returned by `scrapeAllArticles` has at most
`maxArticles` entries, and every fetch call of the crawl — the initial
category fetch and each section-listing, article-listing and
article-detail fetch, at every nesting level — happens while the running
total of successfully written articles is strictly below the cap; hence
once the cap is reached no further fetch occurs. -/
theorem c1_cap_invariant (S : Scraper) (env : Env) (hpos : 0 < S.maxArticles) :
    (scrapeAllArticles S env).saved.length ≤ S.maxArticles ∧
    ∀ e ∈ (scrapeAllArticles S env).events, e.2 < S.maxArticles := by
  obtain ⟨np, ne, hp, hev, hs, ht, hne, hle⟩ := scrape_delta S env
  constructor
  · have hlen : (scrapeAllArticles S env).saved.length = (scrapeAllArticles S env).total := by
      rw [hs, ht]
      simp [initialState]
    rw [hlen]
    exact hle (Nat.zero_le _)
  · intro e he
    rw [hev] at he
    rcases List.mem_append.mp he with h | h
    · have : e = (FetchEvent.categories, 0) := by simpa [initialState] using h
      rw [this]
      exact hpos
    · exact hne e h

def capScraper : Scraper := mkScraper { maxArticles := some 2 }

def stubArticle (i : Nat) : Article where
  id := i
  title := "t"
  body := none
  html_url := "u"
  author_id := none
  created_at := ""
  updated_at := ""
  draft := false
  promoted := false
  position := 0
  vote_sum := 0
  vote_count := 0
  section_id := 1
  label_names := none

def capEnv : Env where
  categoriesResp := FetchResult.ok ⟨some [⟨1, "C"⟩]⟩
  sectionsResp := fun _ => FetchResult.ok ⟨some [⟨1, "S"⟩]⟩
  articlesResp := fun _ => FetchResult.ok ⟨some [⟨1, "a"⟩, ⟨2, "b"⟩, ⟨3, "c"⟩]⟩
  detailResp := fun i => FetchResult.ok ⟨some (stubArticle i)⟩
  writeOk := fun _ _ => true

/-- Witness for C1 at a concrete cap of 2 with three available articles. -/
theorem c1_cap_invariant_witness :
    0 < capScraper.maxArticles ∧
    ((scrapeAllArticles capScraper capEnv).saved.length ≤ capScraper.maxArticles ∧
     ∀ e ∈ (scrapeAllArticles capScraper capEnv).events, e.2 < capScraper.maxArticles) :=
  ⟨by decide, c1_cap_invariant capScraper capEnv (by decide)⟩

/-- C2: the four entity fetchers are total functions of the request
outcome — no failure escapes to the caller; a transport or non-2xx
failure (the catch branch) yields the empty list for the three listing
fetchers and `none` for the detail fetcher, and a 2xx body missing the
expected array field also yields the empty list. -/
theorem c2_fetchers_absorb_failures :
    (∀ m, fetchCategories (FetchResult.err m) = []) ∧
    (∀ m, fetchSections (FetchResult.err m) = []) ∧
    (∀ m, fetchArticles (FetchResult.err m) = []) ∧
    (∀ m, fetchArticleContent (FetchResult.err m) = none) ∧
    fetchCategories (FetchResult.ok ⟨none⟩) = [] ∧
    fetchSections (FetchResult.ok ⟨none⟩) = [] ∧
    fetchArticles (FetchResult.ok ⟨none⟩) = [] :=
  ⟨fun _ => rfl, fun _ => rfl, fun _ => rfl, fun _ => rfl, rfl, rfl, rfl⟩

/-- C3: the saved list of a crawl is exactly the successful outcomes, in
order, of the summaries whose detail fetch was attempted — a
`ScrapeResult` appears if and only if the detail fetch returned an
article and the write succeeded — and the running total (the value
checked against the cap) equals the number of saved results, so fetch
failures and write failures do not count toward the cap. -/
theorem c3_result_iff_fetched_and_written (S : Scraper) (env : Env) :
    (scrapeAllArticles S env).saved =
      (scrapeAllArticles S env).processed.filterMap (articleOutcome S env) ∧
    (scrapeAllArticles S env).total = (scrapeAllArticles S env).saved.length := by
  obtain ⟨np, ne, hp, hev, hs, ht, hne, hle⟩ := scrape_delta S env
  constructor
  · rw [hs, hp]
    simp [initialState]
  · rw [ht, hs]
    simp [initialState]

/-- C4: `generateSlug` is a pure deterministic function and realizes the
specified pipeline on the spec's two examples. -/
theorem c4_generateSlug_pipeline :
    (∀ t : String, generateSlug t = generateSlug t) ∧
    generateSlug "Hello, World!" = "hello-world" ∧
    generateSlug "  A--B  " = "a-b" :=
  ⟨fun _ => rfl, by decide, by decide⟩

/-- C6 (the claim fails on the code): on a post-rewrite text with four
consecutive blank lines between two text lines, the newline-collapsing
pass first yields exactly one blank line, but the very next pass
(`\n\s+` to `\n`, whose source comment says it strips leading spaces on
lines) also swallows newlines, so the final output has *no* blank line:
the whitespace-normalization stage maps `a` + four blank lines + `b` to
`"a\nb"`, not `"a\n\nb"`, and the full converter does the same for the
corresponding `<br>` input. -/
theorem c6_blank_lines_eaten :
    normalizeWhitespace ( "a\n\n\n\n\nb").data = ( "a\nb").data ∧
    htmlToMarkdown "https://support.optisigns.com"
      (some "a<br><br><br><br><br>b") "" = "a\nb" :=
  ⟨by decide, by decide⟩

/-- C9: falsy converter input — absent body or the empty string — maps
to the empty string (the guard returns before any rewrite rule), for
every base origin and article url. -/
theorem c9_falsy_html_empty (baseUrl articleUrl : String) :
    htmlToMarkdown baseUrl none articleUrl = "" ∧
    htmlToMarkdown baseUrl (some "") articleUrl = "" :=
  ⟨rfl, rfl⟩

lemma removeFirstOcc_of_isPrefixOf {pat l : List Char}
    (h : pat.isPrefixOf l = true) :
    removeFirstOcc pat l = l.drop pat.length := by
  cases l with
  | nil =>
    cases pat with
    | nil => rfl
    | cons p ps => simp [List.isPrefixOf] at h
  | cons c cs =>
    rw [removeFirstOcc, if_pos h]

/-- C5: the anchor-rewrite callback on the three href classes — a
root-relative href is kept verbatim, an href starting with the base
origin loses exactly that prefix (the removal of the first occurrence of
the origin removes precisely the prefix), and any other href (external
absolute urls included) is kept verbatim, each produced as a
`[text](href)` link. -/
theorem c5_anchor_href_normalization (baseUrl href text : List Char) :
    (( "/").data.isPrefixOf href = true →
      anchorReplacement baseUrl href text = mdLink text href) ∧
    (( "/").data.isPrefixOf href = false → baseUrl.isPrefixOf href = true →
      anchorReplacement baseUrl href text = mdLink text (href.drop baseUrl.length)) ∧
    (( "/").data.isPrefixOf href = false → baseUrl.isPrefixOf href = false →
      anchorReplacement baseUrl href text = mdLink text href) := by
  refine ⟨fun h1 => ?_, fun h1 h2 => ?_, fun h1 h2 => ?_⟩
  · simp [anchorReplacement, h1]
  · simp [anchorReplacement, h1, h2, removeFirstOcc_of_isPrefixOf h2]
  · simp [anchorReplacement, h1, h2]

/-- Witness for C5 on the spec's base-origin example. -/
theorem c5_anchor_href_normalization_witness :
    anchorReplacement ( "https://support.example.com").data
      ( "https://support.example.com/foo").data ( "t").data =
    mdLink ( "t").data
      (( "https://support.example.com/foo").data.drop
        ( "https://support.example.com").data.length) :=
  (c5_anchor_href_normalization _ _ _).2.1 (by decide) (by decide)

/-- Specification-side description of the title escaping: each double
quote becomes backslash-quote, every other character is untouched. -/
def escSpec : List Char → List Char
  | [] => []
  | c :: cs => (if c == '"' then [ '\\', '"'] else [c]) ++ escSpec cs

lemma applyRuleAux_quote (l : List Char) : ∀ fuel, l.length ≤ fuel →
    applyRuleAux quoteRule fuel l = escSpec l := by
  induction l with
  | nil =>
    intro fuel _
    cases fuel <;> rfl
  | cons c cs ih =>
    intro fuel hf
    cases fuel with
    | zero => simp at hf
    | succ n =>
      have hn : cs.length ≤ n := by
        simpa using Nat.le_of_succ_le_succ hf
      cases hq : (c == '"') with
      | true =>
        have : quoteRule (c :: cs) = some ([ '\\', '"'], cs) := by
          simp [quoteRule, hq]
        simp [applyRuleAux, this, escSpec, hq, ih n hn]
      | false =>
        have : quoteRule (c :: cs) = none := by
          simp [quoteRule, hq]
        simp [applyRuleAux, this, escSpec, hq, ih n hn]

lemma escapeQuotes_data (s : String) : (escapeQuotes s).data = escSpec s.data := by
  simpa [escapeQuotes, applyRule] using applyRuleAux_quote s.data s.data.length le_rfl

lemma escSpec_noquote (l : List Char) (h : ∀ c ∈ l, (c == '"') = false) :
    escSpec l = l := by
  induction l with
  | nil => rfl
  | cons c cs ih =>
    rw [escSpec, h c (List.mem_cons_self c cs), ih fun d hd => h d (List.mem_cons_of_mem c hd)]
    rfl

def exArticle : Article where
  id := 7
  title := "He said \"hi\""
  body := none
  html_url := "https://x/y"
  author_id := none
  created_at := "2024-01-01"
  updated_at := "2024-01-02"
  draft := false
  promoted := true
  position := 1
  vote_sum := -2
  vote_count := 3
  section_id := 9
  label_names := some ["a"]

/-- C8: in the frontmatter, the title is escaped by turning each double
quote into backslash-quote and changing nothing else; a title without
quotes is untouched; and for an article saved without a category or a
section the full frontmatter block carries the literal `"Unknown"` in the
`category` and `section` fields — shown on the spec's example title,
where the block is produced exactly, quote escaping included. -/
theorem c8_frontmatter_escaping :
    (∀ s : String, (escapeQuotes s).data = escSpec s.data) ∧
    (∀ s : String, (∀ c ∈ s.data, (c == '"') = false) → escapeQuotes s = s) ∧
    buildFrontmatter exArticle none none =
      "---\ntitle: \"He said \\\"hi\\\"\"\nid: 7\nurl: https://x/y\ncategory: \"Unknown\"\nsection: \"Unknown\"\nauthor: \"Unknown\"\ncreated_at: \"2024-01-01\"\nupdated_at: \"2024-01-02\"\ndraft: false\npromoted: true\nposition: 1\nvote_sum: -2\nvote_count: 3\nsection_id: 9\ncategory_id: \ntags: [\"a\"]\n---\n\n" := by
  have key : ∀ s : String, escapeQuotes s = String.mk (escSpec s.data) := fun s =>
    congrArg String.mk
      (by simpa [escapeQuotes, applyRule] using applyRuleAux_quote s.data s.data.length le_rfl)
  refine ⟨escapeQuotes_data, fun s h => ?_, by decide⟩
  obtain ⟨d⟩ := s
  exact (key ⟨d⟩).trans (congrArg String.mk (escSpec_noquote d h))

/-- Witness for C8 at a quote-free title. -/
theorem c8_frontmatter_escaping_witness : escapeQuotes "abc" = "abc" :=
  c8_frontmatter_escaping.2.1 "abc" (by decide)

def capZeroOptions : ScraperOptions := { maxArticles := some 0 }

def sixtySummaries : List ArticleSummary :=
  (List.range 60).map fun i => { id := i, title := "t" }

def abundantEnv : Env where
  categoriesResp := FetchResult.ok ⟨some [⟨1, "C"⟩]⟩
  sectionsResp := fun _ => FetchResult.ok ⟨some [⟨1, "S"⟩]⟩
  articlesResp := fun _ => FetchResult.ok ⟨some sixtySummaries⟩
  detailResp := fun i => FetchResult.ok ⟨some (stubArticle i)⟩
  writeOk := fun _ _ => true

/-- C10: the constructor turns every falsy option into its default — a
configured `maxArticles` of `0` becomes `50`, a configured `delay` of
`0` becomes `1000`, absent values likewise, an empty base url becomes
the default origin — and consequently a crawl configured with cap `0`
runs with cap `50`: in an environment offering sixty articles it writes
exactly fifty. -/
theorem c10_constructor_defaults :
    (∀ o : ScraperOptions, o.maxArticles = some 0 → (mkScraper o).maxArticles = 50) ∧
    (∀ o : ScraperOptions, o.maxArticles = none → (mkScraper o).maxArticles = 50) ∧
    (∀ o : ScraperOptions, o.delay = some 0 → (mkScraper o).delay = 1000) ∧
    (∀ o : ScraperOptions, o.delay = none → (mkScraper o).delay = 1000) ∧
    (∀ o : ScraperOptions, o.baseUrl = some "" →
      (mkScraper o).baseUrl = "https://support.optisigns.com") ∧
    (scrapeAllArticles (mkScraper capZeroOptions) abundantEnv).saved.length = 50 := by
  refine ⟨?_, ?_, ?_, ?_, ?_, by decide⟩
  · intro o h; simp [mkScraper, jsOrNat, h]
  · intro o h; simp [mkScraper, jsOrNat, h]
  · intro o h; simp [mkScraper, jsOrNat, h]
  · intro o h; simp [mkScraper, jsOrNat, h]
  · intro o h; simp [mkScraper, jsOrString, h]

/-- Witness for C10 at the concrete cap-zero options. -/
theorem c10_constructor_defaults_witness :
    (mkScraper capZeroOptions).maxArticles = 50 :=
  c10_constructor_defaults.1 capZeroOptions rfl

/-! ## The pre-block rules in isolation (claim C7) -/

lemma applyRuleAux_nil (rule : List Char → Option (List Char × List Char)) :
    ∀ fuel, applyRuleAux rule fuel [] = [] := by
  intro fuel
  cases fuel <;> rfl

lemma applyRuleAux_of_no_match (rule : List Char → Option (List Char × List Char)) :
    ∀ (fuel : Nat) (l : List Char), (∀ l', l' <:+ l → rule l' = none) →
      applyRuleAux rule fuel l = l := by
  intro fuel
  induction fuel with
  | zero => intro l _; rfl
  | succ n ih =>
    intro l H
    cases l with
    | nil => rfl
    | cons c cs =>
      have h0 := H (c :: cs) (List.suffix_refl _)
      simp only [applyRuleAux, h0]
      exact congrArg (c :: ·) (ih cs fun l' h => H l' (h.trans (List.suffix_cons c cs)))

lemma applyRule_of_no_match (rule : List Char → Option (List Char × List Char))
    (l : List Char) (H : ∀ l', l' <:+ l → rule l' = none) :
    applyRule rule l = l :=
  applyRuleAux_of_no_match rule l.length l H

/-- Decidable check that a rule matches at no suffix of a list. -/
def ruleFreeB (rule : List Char → Option (List Char × List Char)) : List Char → Bool
  | [] => (rule []).isNone
  | c :: cs => (rule (c :: cs)).isNone && ruleFreeB rule cs

lemma ruleFree_suffix (rule : List Char → Option (List Char × List Char)) :
    ∀ l, ruleFreeB rule l = true → ∀ l', l' <:+ l → rule l' = none := by
  intro l
  induction l with
  | nil =>
    intro hb l' h
    rw [List.suffix_nil.mp h]
    exact Option.isNone_iff_eq_none.mp (by simpa [ruleFreeB] using hb)
  | cons c cs ih =>
    intro hb l' h
    rw [ruleFreeB, Bool.and_eq_true] at hb
    rcases List.suffix_cons_iff.mp h with h | h
    · subst h
      exact Option.isNone_iff_eq_none.mp hb.1
    · exact ih hb.2 l' h

lemma preCodeRule_none_head {c : Char} {cs : List Char}
    (hc : charEqCI '<' c = false) : preCodeRule (c :: cs) = none := by
  simp [preCodeRule, matchOpenTag, matchLit, hc]

lemma preCode_ruleFree (t : List Char)
    (ht : ∀ c ∈ t, charEqCI '<' c = false) :
    ruleFreeB preCodeRule (t ++ ( "</pre>").data) = true := by
  induction t with
  | nil => decide
  | cons c cs ih =>
    rw [List.cons_append, ruleFreeB, Bool.and_eq_true]
    constructor
    · rw [preCodeRule_none_head (ht c (List.mem_cons_self c cs))]
      rfl
    · exact ih fun d hd => ht d (List.mem_cons_of_mem c hd)

lemma preCode_none_full (t : List Char)
    (ht : ∀ c ∈ t, charEqCI '<' c = false) :
    ∀ l', l' <:+ (( "<pre>").data ++ t ++ ( "</pre>").data) →
      preCodeRule l' = none := by
  intro l' h
  have hfull : ( "<pre>").data ++ t ++ ( "</pre>").data
      = '<' :: 'p' :: 'r' :: 'e' :: '>' :: (t ++ ( "</pre>").data) := rfl
  rw [hfull] at h
  rcases List.suffix_cons_iff.mp h with h | h
  · subst h
    have hcode : matchOpenTag ( "code").data (t ++ ( "</pre>").data) = none := by
      cases t with
      | nil => decide
      | cons c cs =>
        rw [List.cons_append]
        have hc := ht c (List.mem_cons_self c cs)
        simp [matchOpenTag, matchLit, hc]
    have hopen : matchOpenTag ( "pre").data
        ('<' :: 'p' :: 'r' :: 'e' :: '>' :: (t ++ ( "</pre>").data))
        = some (t ++ ( "</pre>").data) := rfl
    simp [preCodeRule, hopen, hcode]
  rcases List.suffix_cons_iff.mp h with h | h
  · subst h
    exact preCodeRule_none_head (by decide)
  rcases List.suffix_cons_iff.mp h with h | h
  · subst h
    exact preCodeRule_none_head (by decide)
  rcases List.suffix_cons_iff.mp h with h | h
  · subst h
    exact preCodeRule_none_head (by decide)
  rcases List.suffix_cons_iff.mp h with h | h
  · subst h
    exact preCodeRule_none_head (by decide)
  · exact ruleFree_suffix preCodeRule _ (preCode_ruleFree t ht) l' h

lemma lazyCapture_pre (t : List Char)
    (ht : ∀ c ∈ t, charEqCI '<' c = false) :
    lazyCaptureUntil (fun _ => true) ( "</pre>").data (t ++ ( "</pre>").data)
      = some (t, []) := by
  induction t with
  | nil => decide
  | cons c cs ih =>
    rw [List.cons_append, lazyCaptureUntil]
    have hm : matchLit charEqCI ( "</pre>").data
        (c :: (cs ++ ( "</pre>").data)) = none := by
      have hc := ht c (List.mem_cons_self c cs)
      simp [matchLit, hc]
    rw [hm]
    simp [ih fun d hd => ht d (List.mem_cons_of_mem c hd)]

lemma preBare_match (t : List Char)
    (ht : ∀ c ∈ t, charEqCI '<' c = false) :
    preBareRule ('<' :: 'p' :: 'r' :: 'e' :: '>' :: (t ++ ( "</pre>").data))
      = some (( "```\n").data ++ t ++ ( "\n```").data, []) := by
  have hopen : matchOpenTag ( "pre").data
      ('<' :: 'p' :: 'r' :: 'e' :: '>' :: (t ++ ( "</pre>").data))
      = some (t ++ ( "</pre>").data) := rfl
  have hclose : closeTagOf ( "pre").data = ( "</pre>").data := rfl
  rw [preBareRule, wrapRule, hopen]
  dsimp only
  rw [hclose, lazyCapture_pre t ht]

/-- C7, corrected, positive part: the pre-rewrite stage itself (the two
code-block passes, run on text in which the earlier inline-code rule
found nothing to change) turns a bare pre block whose inner text
contains no `<` character into a triple-backtick fenced block whose
fence content is the inner text verbatim.  The verbatim property belongs
to this stage only: in the full converter the inline-code rule runs
before it (see the counterexample) and entity decoding and whitespace
normalization run after it. -/
theorem c7_pre_stage_verbatim (t : List Char)
    (ht : ∀ c ∈ t, charEqCI '<' c = false) :
    rewritePre (( "<pre>").data ++ t ++ ( "</pre>").data)
      = ( "```\n").data ++ t ++ ( "\n```").data := by
  rw [rewritePre, applyRule_of_no_match preCodeRule _ (preCode_none_full t ht)]
  rw [applyRule]
  have hfull : ( "<pre>").data ++ t ++ ( "</pre>").data
      = '<' :: 'p' :: 'r' :: 'e' :: '>' :: (t ++ ( "</pre>").data) := rfl
  rw [hfull, List.length_cons]
  simp only [applyRuleAux, preBare_match t ht]
  simp

/-- Witness for the corrected C7 at a concrete two-line inner text. -/
theorem c7_pre_stage_verbatim_witness :
    rewritePre (( "<pre>").data ++ ( "line1\nline2").data ++ ( "</pre>").data)
      = ( "```\n").data ++ ( "line1\nline2").data ++ ( "\n```").data :=
  c7_pre_stage_verbatim ( "line1\nline2").data (by decide)

/-- C7, counterexample to the claim as stated: on a one-line
`pre > code` block the full converter does not preserve the inner text
between the fences — the inline-code rule (which runs before the
code-block rules) has already wrapped it in backticks, so the fenced
text is backtick-x-backtick rather than `x`. -/
theorem c7_counterexample :
    htmlToMarkdown "https://support.optisigns.com"
        (some "<pre><code>x</code></pre>") "" = "```\n`x`\n```" ∧
    htmlToMarkdown "https://support.optisigns.com"
        (some "<pre><code>x</code></pre>") "" ≠ "```\nx\n```" :=
  ⟨by decide, by decide⟩

end InfoScraper
